import Mathlib

/-!
# nx-proxy: shallow embedding and verification

This file embeds, in Lean 4, the core data/control engine of the nx-proxy
forwarding proxy node (Go sources): the framed-read I/O helpers, the
peer/connection model with connection caps and bandwidth redistribution,
the slot peer-reconciliation and delta accounting, the SOCKS5 password
sub-negotiation and reply-address marshalling, the HTTP proxy
authorization parsing, and the server-token text format.

Conventions of the embedding:
* Go byte slices are `List Nat` with every element `< 256`; a Go `nil`
  slice is distinguished from an empty one by `Option (List Nat)` where
  the source relies on nilness.
* Machine integers are `Nat` with explicit wrap-around (`% 2^32`,
  `% 2^64`) exactly where the Go code can overflow.
* Go maps iterated by the source are association lists kept in insertion
  order; theorems about map-ordered output are stated order-insensitively
  (membership plus length).
* Time is abstracted to whole seconds: a `PeerConnection.updated`
  timestamp is `Option Nat` (`none` is Go's zero `time.Time`), and the
  current instant is an explicit `now : Nat` parameter.
* Fallible Go functions return `Option`/`Except`; a Go runtime panic is
  modelled as `none` of an `Option` result and noted at the definition.
-/

namespace NxProxy

/-- 32-bit wrap-around addition (Go `uint32` `+`). -/
def u32add (a b : Nat) : Nat := (a + b) % 2 ^ 32

/-- 64-bit wrap-around addition (Go `uint64` `+`). -/
def u64add (a b : Nat) : Nat := (a + b) % 2 ^ 64

/-- 64-bit wrap-around subtraction (Go `uint64` `-`). -/
def u64sub (a b : Nat) : Nat := (a + 2 ^ 64 - b % 2 ^ 64) % 2 ^ 64

/-- Go `uint32(x)` conversion of a `uint64` value. -/
def u32of (a : Nat) : Nat := a % 2 ^ 32

/-!
## I/O helpers: `ReadN` and `ReadByte` (src/io.go, src/unnamed/part_016)

The byte-stream reader is modelled by the outcome of its single `Read`
call on the `n`-byte buffer: how many bytes it reported read
(`bytesRead`), the bytes it placed in the buffer (`data`, at most
`bytesRead` of which are used), and the error value it returned
(`none` = Go `nil`).
-/

/-- Outcome of one Go `io.Reader.Read` call. -/
structure ReadResult where
  bytesRead : Nat
  data : List Nat
  ioErr : Option String
  deriving Repr, DecidableEq

/-- `ReadN(reader, n)` from src/io.go.  Returns the buffer (Go `nil`
buffer is `none`) and the error.  The buffer handed back on the
`bytesRead == len(buff)` path is the first `n` reader bytes; on the
final `return buff, err` path it is the partially-filled zero-padded
buffer. -/
def readN (r : ReadResult) (n : Int) : Option (List Nat) × Option String :=
  if n ≤ 0 then (none, none)
  else
    let len := n.toNat
    let buff := (r.data.take (min r.bytesRead len)) ++
      List.replicate (len - min r.bytesRead len) 0
    if r.bytesRead = len then (some buff, none)
    else if r.ioErr = none ∧ r.bytesRead ≠ len then (none, some "EOF")
    else (some buff, r.ioErr)

/-- `ReadByte(reader)` from src/io.go: `buff, err := ReadN(reader, 1);
return buff[0], err`.  Indexing a Go `nil` slice at 0 panics; the panic
is modelled as the `none` result. -/
def readByte (r : ReadResult) : Option (Nat × Option String) :=
  match readN r 1 with
  | (some buff, err) => some (buff.headD 0, err)
  | (none, _) => none

/-!
## Peer, peer connections, bandwidth (src/peer.go, src/unnamed/part_007,
src/peer_bandwidth.go)

`Peer.connMap` (a Go map `conn_id → *PeerConnection`) is an association
list kept in insertion order; `PeerConnection.closed` models
`conn.ctx.Err() != nil` (the cancellation context has fired);
`updated` is the zero-or-set `time.Time` of the last redistribution
sample, in whole seconds.
-/

/-- `PeerBandwidth` options (uint32 fields). -/
structure PeerBandwidth where
  rx : Nat := 0
  tx : Nat := 0
  minRx : Nat := 0
  minTx : Nat := 0
  deriving Repr, DecidableEq

/-- Runtime `PeerConnection`: per-connection byte counters (uint64),
per-connection bandwidth caps (uint32), cancellation state, and the
last redistribution sample instant. -/
structure PeerConnection where
  id : Nat
  bytesRx : Nat := 0
  bytesTx : Nat := 0
  bandwRx : Nat := 0
  bandwTx : Nat := 0
  closed : Bool := false
  updated : Option Nat := none
  deriving Repr, DecidableEq

/-- Errors a peer can raise on `Connection()`. -/
inductive PeerErr where
  | tooManyConnections
  | peerClosed
  deriving Repr, DecidableEq

/-- `UserPassword` credentials (`password_auth`). -/
structure UserPassword where
  user : String := ""
  password : String := ""
  deriving Repr, DecidableEq

/-- `PeerOptions`: the declarative per-peer configuration.  `id` is the
peer UUID as a number, `0` being `uuid.Nil`; `passwordAuth = none` is a
Go `nil` pointer. -/
structure PeerOptions where
  id : Nat := 0
  passwordAuth : Option UserPassword := none
  maxConnections : Nat := 0
  bandwidth : PeerBandwidth := {}
  framedIP : String := ""
  disabled : Bool := false
  deriving Repr, DecidableEq

/-- Runtime `Peer`: embedded options, the dialer's bound local address,
pending delta counters, the connection map and the next connection id.
`closedFlag` is the `closed` atomic of the part_007 draft. -/
structure Peer where
  opts : PeerOptions := {}
  localAddr : Option String := none
  dataReceived : Nat := 0
  dataSent : Nat := 0
  nextConnID : Nat := 0
  connMap : List PeerConnection := []
  closedFlag : Bool := false
  deriving Repr, DecidableEq

/-- Go `math.MaxInt64`. -/
def maxInt64 : Nat := 9223372036854775807

/-- `pickNextId` from `Peer.Connection`: increment `nextConnID` while it
is below `math.MaxInt64`; once exhausted, scan for the lowest unused id
(the Go loop runs `idx` over `0..MaxInt64-1`; by pigeonhole the least
free id is at most `connMap.length`, so the scan is bounded here by
`connMap.length + 1` with the same result), else fail. -/
def pickNextId (p : Peer) : Option (Nat × Nat) :=
  if p.nextConnID < maxInt64 then
    some (p.nextConnID + 1, p.nextConnID + 1)
  else
    match (List.range (min (p.connMap.length + 1) maxInt64)).find?
        (fun idx => p.connMap.all (fun c => c.id ≠ idx)) with
    | some idx => some (idx, p.nextConnID)
    | none => none

/-- `Peer.Connection()` (src/peer.go:104-176, src/unnamed/part_007:83-159).
Rejects when the peer is closed, or when
`MaxConnections > 0 && len(connMap) > MaxConnections`; otherwise
allocates an id and registers a fresh connection whose initial caps are
`max(base/N, Min)` with `N = len(connMap)` before insertion (`base`
undivided when `N ≤ 1`).  The background redistribution goroutine it
lazily starts is driven explicitly via `refreshState` below. -/
def connection (p : Peer) : Except PeerErr PeerConnection × Peer :=
  if p.closedFlag then (.error .peerClosed, p)
  else if p.opts.maxConnections > 0 ∧ p.connMap.length > p.opts.maxConnections then
    (.error .tooManyConnections, p)
  else
    match pickNextId p with
    | none => (.error .tooManyConnections, p)
    | some (nextID, nextCounter) =>
      let n := p.connMap.length
      let distributed (base : Nat) : Nat := if n > 1 then base / n else base
      let conn : PeerConnection :=
        { id := nextID
          bandwRx := max (distributed p.opts.bandwidth.rx) p.opts.bandwidth.minRx
          bandwTx := max (distributed p.opts.bandwidth.tx) p.opts.bandwidth.minTx }
      (.ok conn, { p with nextConnID := nextCounter, connMap := p.connMap ++ [conn] })

/-- `PeerConnection.AccountRx`: add to the rx counter when positive. -/
def accountRx (delta : Int) (c : PeerConnection) : PeerConnection :=
  if delta > 0 then { c with bytesRx := u64add c.bytesRx delta.toNat } else c

/-- `PeerConnection.AccountTx`: add to the tx counter when positive. -/
def accountTx (delta : Int) (c : PeerConnection) : PeerConnection :=
  if delta > 0 then { c with bytesTx := u64add c.bytesTx delta.toNat } else c

/-- Apply an update to the connection with the given id inside a peer's
map (Go mutates through the `*PeerConnection` pointer shared between
the map and the caller's handle). -/
def onConn (p : Peer) (id : Nat) (f : PeerConnection → PeerConnection) : Peer :=
  { p with connMap := p.connMap.map (fun c => if c.id = id then f c else c) }

/-- `saturationThreshold` in `RefreshState`: `val - val/10`. -/
def saturationThreshold (val : Nat) : Nat := val - val / 10

/-- `equivalentBandwidth` in `RefreshState`: `base` when the sample
instant is unset or at most one second old, else the elapsed seconds
times `base` (the Go float `elapsed.Seconds() * float64(base)` is
modelled as the exact product over whole seconds). -/
def equivalentBandwidth (now base : Nat) (updatedAt : Option Nat) : Nat :=
  match updatedAt with
  | some u => if now - u > 1 then (now - u) * base else base
  | none => base

/-- Pass-1 accumulator of `RefreshState`: saturated-connection counts
and unused bandwidth pools for both directions. -/
structure RefreshPass1 where
  nsatRx : Nat := 0
  nsatTx : Nat := 0
  unusedRx : Nat := 0
  unusedTx : Nat := 0
  deriving Repr, DecidableEq

/-- Pass 1 of `Peer.RefreshState` over one connection: count it as
saturated when its volume reaches the threshold, else add its unused
headroom `equivalent - volume` (uint64 difference narrowed to uint32,
accumulated in a uint32) to the pool. -/
def refreshPass1Step (now baseRx baseTx satRx satTx : Nat)
    (acc : RefreshPass1) (c : PeerConnection) : RefreshPass1 :=
  let equivRx := equivalentBandwidth now baseRx c.updated
  let equivTx := equivalentBandwidth now baseTx c.updated
  let acc :=
    if c.bytesRx ≥ satRx then { acc with nsatRx := acc.nsatRx + 1 }
    else
      let delta := u64sub equivRx c.bytesRx
      if delta > 0 then { acc with unusedRx := u32add acc.unusedRx (u32of delta) }
      else acc
  if c.bytesTx ≥ satTx then { acc with nsatTx := acc.nsatTx + 1 }
  else
    let delta := u64sub equivTx c.bytesTx
    if delta > 0 then { acc with unusedTx := u32add acc.unusedTx (u32of delta) }
    else acc

/-- Pass 2 of `Peer.RefreshState` over one connection: swap its byte
counters to zero and store the new caps `max(base + extra, Min)` (the
uint32 sum may wrap), where the bonus `extra = unused / nsat` goes to
saturated connections only. -/
def refreshPass2Step (bw : PeerBandwidth) (baseRx baseTx satRx satTx : Nat)
    (acc : RefreshPass1) (c : PeerConnection) : PeerConnection :=
  let extraRx := if acc.nsatRx > 0 ∧ c.bytesRx ≥ satRx
    then acc.unusedRx / acc.nsatRx else 0
  let extraTx := if acc.nsatTx > 0 ∧ c.bytesTx ≥ satTx
    then acc.unusedTx / acc.nsatTx else 0
  { c with
      bytesRx := 0
      bytesTx := 0
      bandwRx := max (u32add baseRx extraRx) bw.minRx
      bandwTx := max (u32add baseTx extraTx) bw.minTx }

/-- The fair share `base = aggregate / N` of `RefreshState`
(`aggregate` undivided when `N ≤ 1`). -/
def baseBandwidthOf (n val : Nat) : Nat := if n > 1 then val / n else val

/-- The redistribution core of `Peer.RefreshState` over the surviving
connections: compute the fair shares and thresholds, run pass 1
(stamping `updated = now`), then run pass 2. -/
def refreshBands (now : Nat) (bw : PeerBandwidth) (conns : List PeerConnection) :
    List PeerConnection :=
  let baseRx := baseBandwidthOf conns.length bw.rx
  let baseTx := baseBandwidthOf conns.length bw.tx
  let satRx := saturationThreshold baseRx
  let satTx := saturationThreshold baseTx
  let acc := conns.foldl (refreshPass1Step now baseRx baseTx satRx satTx) {}
  (conns.map (fun c => { c with updated := some now })).map
    (refreshPass2Step bw baseRx baseTx satRx satTx acc)

/-- `Peer.RefreshState` (src/unnamed/part_007:187-296; the same
algorithm split out as `RedistributePeerBandwidth` in
src/peer_bandwidth.go:5-84).  Removes cancelled connections folding
their byte counters into the peer's pending deltas; redistributes
bandwidth over the survivors (`refreshBands`); folds the volume
swapped out in pass 2 into the peer's pending deltas. -/
def refreshState (now : Nat) (p : Peer) : Peer :=
  if p.closedFlag then p
  else
    let removed := p.connMap.filter (fun c => c.closed)
    let conns := p.connMap.filter (fun c => !c.closed)
    let rxAfterClean := removed.foldl (fun a c => u64add a c.bytesRx) p.dataReceived
    let txAfterClean := removed.foldl (fun a c => u64add a c.bytesTx) p.dataSent
    { p with
        dataReceived := conns.foldl (fun a c => u64add a c.bytesRx) rxAfterClean
        dataSent := conns.foldl (fun a c => u64add a c.bytesTx) txAfterClean
        connMap := refreshBands now p.opts.bandwidth conns }

/-- Projection of a connection to its accounting-visible fields
(everything but the `updated` sample instant). -/
def connView (c : PeerConnection) : Nat × Nat × Nat × Nat × Nat × Bool :=
  (c.id, c.bytesRx, c.bytesTx, c.bandwRx, c.bandwTx, c.closed)

theorem refreshPass1Step_updated_none (now now' bR bT sR sT : Nat)
    (acc : RefreshPass1) (c : PeerConnection) (h : c.updated = none) :
    refreshPass1Step now bR bT sR sT acc c = refreshPass1Step now' bR bT sR sT acc c := by
  obtain ⟨cid, brx, btx, bwr, bwt, cl, upd⟩ := c
  cases h
  rfl

theorem foldl_refreshPass1_updated_none (now now' bR bT sR sT : Nat)
    (l : List PeerConnection) (h : ∀ c ∈ l, c.updated = none) (acc : RefreshPass1) :
    l.foldl (refreshPass1Step now bR bT sR sT) acc =
      l.foldl (refreshPass1Step now' bR bT sR sT) acc := by
  apply List.foldl_ext
  intro a c hc
  exact refreshPass1Step_updated_none now now' bR bT sR sT a c (h c hc)

/-- When no connection has ever been sampled, the accounting-visible
outcome of a redistribution pass does not depend on the pass instant. -/
theorem refreshBands_connView_time_free (now now' : Nat) (bw : PeerBandwidth)
    (l : List PeerConnection) (h : ∀ c ∈ l, c.updated = none) :
    (refreshBands now bw l).map connView = (refreshBands now' bw l).map connView := by
  simp only [refreshBands]
  rw [foldl_refreshPass1_updated_none now now' _ _ _ _ _ h]
  simp only [List.map_map]
  rfl

/-- Lift of `refreshBands_connView_time_free` to `RefreshState`. -/
theorem refreshState_connView_time_free (now now' : Nat) (p : Peer)
    (h : ∀ c ∈ p.connMap, c.updated = none) :
    (refreshState now p).connMap.map connView =
      (refreshState now' p).connMap.map connView := by
  unfold refreshState
  by_cases hc : p.closedFlag
  · simp [hc]
  · simp only [hc, Bool.false_eq_true, if_false]
    exact refreshBands_connView_time_free now now' p.opts.bandwidth _
      (fun c hx => h c (List.mem_of_mem_filter hx))

/-!
## Scenario of peer_test.go `TestPeer_Bandwidth_2` (claim C2)

A peer with `Rx = Tx = 10000`, `MinRx = MinTx = 1000`,
`MaxConnections = 10`; five connections account `rx=500, tx=100` each,
a sixth accounts `rx=2000, tx=1600`; then one redistribution pass runs.
-/

/-- Peer options of `TestPeer_Bandwidth_2`. -/
def bw2Peer0 : Peer :=
  { opts := { maxConnections := 10
              bandwidth := { rx := 10000, tx := 10000, minRx := 1000, minTx := 1000 } } }

/-- Acquire one connection and account `rx`/`tx` bytes on it (the test's
`conn.DataReceived.Add` / `conn.DataSent.Add`). -/
def connectAndAccount (rx tx : Int) (p : Peer) : Peer :=
  match connection p with
  | (.ok c, p') => onConn (onConn p' c.id (accountRx rx)) c.id (accountTx tx)
  | (.error _, p') => p'

/-- The peer state of `TestPeer_Bandwidth_2` just before `RefreshState`:
five connections at `(500, 100)` and the hot sixth at `(2000, 1600)`. -/
def bw2Scenario : Peer :=
  connectAndAccount 2000 1600
    (connectAndAccount 500 100 (connectAndAccount 500 100 (connectAndAccount 500 100
      (connectAndAccount 500 100 (connectAndAccount 500 100 bw2Peer0)))))

/-!
## Runner for repeated `Connection()` calls (claim C3)
-/

/-- Whether a `Connection()` call succeeded. -/
def connOk (r : Except PeerErr PeerConnection) : Bool :=
  match r with
  | .ok _ => true
  | .error _ => false

/-- The error of a failed `Connection()` call, if any. -/
def connErr (r : Except PeerErr PeerConnection) : Option PeerErr :=
  match r with
  | .ok _ => none
  | .error e => some e

/-- Perform `n` successive `Connection()` calls, collecting each result. -/
def connectionRun : Nat → Peer → List (Except PeerErr PeerConnection) × Peer
  | 0, p => ([], p)
  | n + 1, p =>
    let (r, p') := connection p
    let (rs, pf) := connectionRun n p'
    (r :: rs, pf)

/-!
## Claim theorems C2, C3, C10
-/

/-- Claim C2 (confirmed): in the `TestPeer_Bandwidth_2` scenario —
`Rx=Tx=10000`, `MinRx=MinTx=1000`, six never-sampled connections, five
having consumed `(500, 100)` and one `(2000, 1600)` — a single
`RefreshState` pass at any instant leaves the hot connection (id 6)
with per-connection caps `bandRx = 7496` and `bandTx = 9496`
(base `10000/6 = 1666`, saturation threshold `1500`, unused pools
`5*1166 = 5830` rx and `5*1566 = 7830` tx awarded to the single
saturated connection). -/
theorem peer_refreshState_bandwidth2_hot_conn (now : Nat) :
    (((refreshState now bw2Scenario).connMap.map connView).find?
        (fun v => v.1 = 6)) = some (6, 0, 0, 7496, 9496, false) := by
  rw [refreshState_connView_time_free now 0 bw2Scenario (by decide)]
  decide

/-- Claim C3 (code bug, evaluation at the failing input): the guard in
`Peer.Connection` is `len(connMap) > MaxConnections`, so for
`MaxConnections = 10` the 11th call still succeeds — 11 connections
coexist — and only the 12th fails with `TooManyConnections`; the spec
and the `max_connections` field documentation say at most 10 may exist
and the 11th acquisition must fail. -/
theorem peer_connection_limit_off_by_one :
    ((connectionRun 12 { opts := { maxConnections := 10 } }).1.map connOk)
        = [true, true, true, true, true, true, true, true, true, true, true, false]
      ∧ (connectionRun 11 { opts := { maxConnections := 10 } }).2.connMap.length = 11
      ∧ ((connectionRun 12 { opts := { maxConnections := 10 } }).1.map connErr).getLast? =
          some (some .tooManyConnections) := by
  decide

theorem refreshPass1Step_satRx_zero_unusedRx (now bR bT sT : Nat)
    (acc : RefreshPass1) (c : PeerConnection) :
    (refreshPass1Step now bR bT 0 sT acc c).unusedRx = acc.unusedRx := by
  unfold refreshPass1Step
  simp only [Nat.zero_le, ge_iff_le, if_pos]
  split
  · rfl
  · split <;> rfl

theorem foldl_refreshPass1_satRx_zero_unusedRx (now bR bT sT : Nat)
    (l : List PeerConnection) (acc : RefreshPass1) :
    (l.foldl (refreshPass1Step now bR bT 0 sT) acc).unusedRx = acc.unusedRx := by
  induction l generalizing acc with
  | nil => rfl
  | cons c l ih =>
    rw [List.foldl_cons, ih]
    exact refreshPass1Step_satRx_zero_unusedRx now bR bT sT acc c

theorem refreshPass2Step_bandwRx_floor (bw : PeerBandwidth)
    (baseTx satTx : Nat) (acc : RefreshPass1) (c : PeerConnection)
    (hu : acc.unusedRx = 0) :
    (refreshPass2Step bw 0 baseTx 0 satTx acc c).bandwRx = bw.minRx := by
  unfold refreshPass2Step
  simp only [hu, Nat.zero_div, ite_self, u32add]
  simp

/-- Claim C10 (confirmed): for a live peer with unlimited aggregate rx
bandwidth (`Bandwidth.Rx = 0`) but a positive per-connection floor
(`MinRx > 0`), one redistribution pass stores `bandRx = MinRx` on every
remaining connection: the fair share and every bonus are `0`, and
`max(0 + 0, MinRx) = MinRx`, so previously unlimited connections become
rate-limited at the floor. -/
theorem peer_refreshState_zero_rx_floor (now : Nat) (p : Peer)
    (hlive : p.closedFlag = false) (hrx : p.opts.bandwidth.rx = 0)
    (hmin : 0 < p.opts.bandwidth.minRx) :
    ∀ c ∈ (refreshState now p).connMap, c.bandwRx = p.opts.bandwidth.minRx := by
  intro c hcmem
  unfold refreshState at hcmem
  simp only [hlive, Bool.false_eq_true, if_false] at hcmem
  simp only [refreshBands] at hcmem
  rw [show baseBandwidthOf (List.filter (fun c => !c.closed) p.connMap).length
        p.opts.bandwidth.rx = 0 by unfold baseBandwidthOf; rw [hrx]; split <;> simp] at hcmem
  rw [show saturationThreshold 0 = 0 from rfl] at hcmem
  simp only [List.map_map, List.mem_map] at hcmem
  obtain ⟨c0, _, hc0⟩ := hcmem
  subst hc0
  exact refreshPass2Step_bandwRx_floor p.opts.bandwidth _ _ _ _
    (foldl_refreshPass1_satRx_zero_unusedRx now 0 _ _ _ {})

/-!
## Slot: peer reconciliation and delta accounting
(src/slot_test.go:148-495 draft, paired with src/peer.go; the same
logic appears in src/slot.go and src/unnamed/part_003)
-/

/-- A peer's reported byte delta (`PeerDelta`). -/
structure PeerDelta where
  peerID : Nat
  rx : Nat
  tx : Nat
  deriving Repr, DecidableEq

/-- `PeerOptions.CmpCredentials` (src/peer.go): false on differing IDs
or a missing auth block on either side, else compare user and
password. -/
def cmpCredentials (a b : PeerOptions) : Bool :=
  if a.id ≠ b.id then false
  else
    match a.passwordAuth, b.passwordAuth with
    | some x, some y => x.user = y.user ∧ x.password = y.password
    | _, _ => false

/-- Pending rx bytes of a peer after folding in every connection's
counter (uint64 sums). -/
def peerTotalRx (p : Peer) : Nat :=
  p.connMap.foldl (fun a c => u64add a c.bytesRx) p.dataReceived

/-- Pending tx bytes of a peer after folding in every connection's
counter (uint64 sums). -/
def peerTotalTx (p : Peer) : Nat :=
  p.connMap.foldl (fun a c => u64add a c.bytesTx) p.dataSent

/-- `Peer.CloseConnections`: cancel every connection, fold its byte
counters into the peer's pending deltas, and empty the map. -/
def closeConnections (p : Peer) : Peer :=
  { p with
      dataReceived := peerTotalRx p
      dataSent := peerTotalTx p
      connMap := [] }

/-- `Peer.Delta`: swap both pending counters to zero; report them when
either is positive. -/
def peerDelta (p : Peer) : Option PeerDelta × Peer :=
  let p' := { p with dataReceived := 0, dataSent := 0 }
  if p.dataReceived > 0 ∨ p.dataSent > 0 then
    (some { peerID := p.opts.id, rx := p.dataReceived, tx := p.dataSent }, p')
  else (none, p')

/-- The runtime `Slot`: deferred deltas of dropped peers, the peer map
(an association list over the peer UUID in insertion order) and the
username index rebuilt by `SetPeers`. -/
structure Slot where
  oldDeltas : List PeerDelta := []
  peerMap : List Peer := []
  userNameMap : List (String × Nat) := []
  deriving Repr, DecidableEq

/-- `storePeerDelta` inside `Slot.SetPeers`: extract the peer's delta
and append it to the deferred list when present. -/
def storePeerDelta (p : Peer) (deltas : List PeerDelta) : Peer × List PeerDelta :=
  match peerDelta p with
  | (some d, p') => (p', deltas ++ [d])
  | (none, p') => (p', deltas)

/-- `ParseFramedIP` abstracted: the Go helper parses the address and
verifies it belongs to a local interface, yielding an error (and a nil
bind address) otherwise; only presence or absence of the resulting
dialer-local address matters here. -/
def parseFramedIP (s : String) : Option String :=
  if s = "" then none else some s

/-- The update-in-place branch of `Slot.SetPeers`
(src/slot_test.go:334-382): replace the options and the dialer's local
address; if the (new) options are disabled, close all connections and
capture the delta; if the credentials changed, do the same. -/
def updateExistingPeer (p : Peer) (e : PeerOptions) (deltas : List PeerDelta) :
    Peer × List PeerDelta :=
  let mustReauth := !(cmpCredentials p.opts e)
  let p1 : Peer := { p with opts := e, localAddr := parseFramedIP e.framedIP }
  let s1 := if p1.opts.disabled then storePeerDelta (closeConnections p1) deltas
    else (p1, deltas)
  if mustReauth then storePeerDelta (closeConnections s1.1) s1.2 else s1

/-- `peerOptsValid` inside `Slot.SetPeers`: reject a nil or duplicate
id, a missing auth block, or a duplicate username; the id is recorded
in the seen-set before the auth checks run, exactly as in the source. -/
def peerOptsValid (idSet : List Nat) (userSet : List String) (e : PeerOptions) :
    Bool × List Nat × List String :=
  if e.id = 0 then (false, idSet, userSet)
  else if e.id ∈ idSet then (false, idSet, userSet)
  else
    let idSet := e.id :: idSet
    match e.passwordAuth with
    | none => (false, idSet, userSet)
    | some pa =>
      if pa.user ∈ userSet then (false, idSet, userSet)
      else (true, idSet, pa.user :: userSet)

/-- Loop state of `Slot.SetPeers`. -/
structure SetPeersState where
  idSet : List Nat := []
  userSet : List String := []
  newPeerMap : List Peer := []
  oldPeerMap : List Peer
  deltas : List PeerDelta

/-- One iteration of the update loop of `Slot.SetPeers`: skip invalid
entries; update an existing peer in place (moving it between maps);
otherwise create a fresh peer with the framed-IP-bound dialer. -/
def setPeersStep (st : SetPeersState) (e : PeerOptions) : SetPeersState :=
  match peerOptsValid st.idSet st.userSet e with
  | (false, idSet, userSet) => { st with idSet := idSet, userSet := userSet }
  | (true, idSet, userSet) =>
    match st.oldPeerMap.find? (fun p => p.opts.id = e.id) with
    | some p =>
      let upd := updateExistingPeer p e st.deltas
      { idSet := idSet, userSet := userSet
        newPeerMap := st.newPeerMap ++ [upd.1]
        oldPeerMap := st.oldPeerMap.filter (fun q => q.opts.id ≠ e.id)
        deltas := upd.2 }
    | none =>
      { idSet := idSet, userSet := userSet
        newPeerMap := st.newPeerMap ++
          [{ opts := e, localAddr := parseFramedIP e.framedIP }]
        oldPeerMap := st.oldPeerMap
        deltas := st.deltas }

/-- `Slot.SetPeers` (src/slot_test.go:273-426): run the update loop,
then close every peer left in the old map (capturing its delta), then
rebuild the username index from the new peer set. -/
def setPeers (slot : Slot) (entries : List PeerOptions) : Slot :=
  let st := entries.foldl setPeersStep
    { oldPeerMap := slot.peerMap, deltas := slot.oldDeltas }
  let removedDeltas := st.oldPeerMap.foldl
    (fun acc p =>
      if st.newPeerMap.any (fun q => q.opts.id = p.opts.id) then acc
      else (storePeerDelta (closeConnections p) acc).2)
    st.deltas
  { oldDeltas := removedDeltas
    peerMap := st.newPeerMap
    userNameMap := st.newPeerMap.foldl
      (fun acc p =>
        match p.opts.passwordAuth with
        | some pa => acc.filter (fun kv => kv.1 ≠ pa.user) ++ [(pa.user, p.opts.id)]
        | none => acc)
      [] }

/-- Merge a delta into the deduplication map of `Slot.Deltas` (a Go map
`uuid → *PeerDelta` whose values are emitted afterwards; uint64 sums
may wrap). -/
def addDelta (acc : List PeerDelta) (d : PeerDelta) : List PeerDelta :=
  if acc.any (fun e => e.peerID = d.peerID) then
    acc.map (fun e =>
      if e.peerID = d.peerID then
        { e with rx := u64add e.rx d.rx, tx := u64add e.tx d.tx }
      else e)
  else acc ++ [d]

/-- `Slot.Deltas` (src/slot_test.go:237-271): drain the deferred list,
extract every live peer's pending delta, and merge the result by peer
id. -/
def slotDeltas (slot : Slot) : List PeerDelta × Slot :=
  let drained :=
    slot.peerMap.foldl
      (fun (acc : List PeerDelta × List Peer) p =>
        match peerDelta p with
        | (some d, p') => (acc.1 ++ [d], acc.2 ++ [p'])
        | (none, p') => (acc.1, acc.2 ++ [p']))
      (slot.oldDeltas, [])
  ((drained.1.foldl addDelta []),
    { slot with oldDeltas := [], peerMap := drained.2 })

theorem storeClose_eq (q : Peer) (deltas : List PeerDelta) :
    storePeerDelta (closeConnections q) deltas =
      ({ q with dataReceived := 0, dataSent := 0, connMap := [] },
        deltas ++ (if peerTotalRx q > 0 ∨ peerTotalTx q > 0
          then [{ peerID := q.opts.id, rx := peerTotalRx q, tx := peerTotalTx q }]
          else [])) := by
  simp only [storePeerDelta, peerDelta, closeConnections]
  by_cases hc : peerTotalRx q > 0 ∨ peerTotalTx q > 0
  · rw [if_pos hc, if_pos hc]
  · rw [if_neg hc, if_neg hc]
    simp


theorem peerTotalRx_optsUpdate (p : Peer) (e : PeerOptions) (la : Option String) :
    peerTotalRx { p with opts := e, localAddr := la } = peerTotalRx p := rfl

theorem peerTotalTx_optsUpdate (p : Peer) (e : PeerOptions) (la : Option String) :
    peerTotalTx { p with opts := e, localAddr := la } = peerTotalTx p := rfl

theorem peerTotalRx_eq_zero (q : Peer) (h1 : q.connMap = []) (h2 : q.dataReceived = 0) :
    peerTotalRx q = 0 := by
  unfold peerTotalRx
  rw [h1, h2]
  rfl

theorem peerTotalTx_eq_zero (q : Peer) (h1 : q.connMap = []) (h2 : q.dataSent = 0) :
    peerTotalTx q = 0 := by
  unfold peerTotalTx
  rw [h1, h2]
  rfl

/-- Claim C6 (corrected, amended part): in the update-in-place branch
of `SetPeers`, when the new options are `Disabled`, or the credentials
(`User`+`Password`) changed, the peer's open connections are all
cancelled and its accumulated delta (pending counters plus every
connection's bytes) is captured into the deferred list before the
reconciliation continues.  A FramedIP-only change does not cancel
connections (see the counterexample theorem). -/
theorem slot_update_cancels_on_disable_or_credentials (p : Peer) (e : PeerOptions) (deltas : List PeerDelta)
    (h : e.disabled = true ∨ cmpCredentials p.opts e = false) :
    (updateExistingPeer p e deltas).1.connMap = [] ∧
      (updateExistingPeer p e deltas).1.dataReceived = 0 ∧
      (updateExistingPeer p e deltas).1.dataSent = 0 ∧
      (updateExistingPeer p e deltas).2 =
        deltas ++ (if peerTotalRx p > 0 ∨ peerTotalTx p > 0
          then [{ peerID := e.id, rx := peerTotalRx p, tx := peerTotalTx p }] else []) := by
  unfold updateExistingPeer
  rcases h with hd | hc
  · simp only [hd, if_true, storeClose_eq, peerTotalRx_optsUpdate, peerTotalTx_optsUpdate]
    by_cases hm : (!cmpCredentials p.opts e) = true
    · rw [if_pos hm]
      simp [peerTotalRx_eq_zero, peerTotalTx_eq_zero]
    · rw [if_neg hm]
      exact ⟨rfl, rfl, rfl, rfl⟩
  · have hm : (!cmpCredentials p.opts e) = true := by rw [hc]; rfl
    by_cases hdis : e.disabled = true
    · simp only [hdis, if_true, storeClose_eq, peerTotalRx_optsUpdate, peerTotalTx_optsUpdate]
      rw [if_pos hm]
      simp [peerTotalRx_eq_zero, peerTotalTx_eq_zero]
    · have hdis' : e.disabled = false := by revert hdis; cases e.disabled <;> simp
      simp only [hdis', Bool.false_eq_true, if_false]
      rw [if_pos hm, storeClose_eq]
      simp [peerTotalRx_optsUpdate, peerTotalTx_optsUpdate]

/-- The peer of the C6 witness and counterexample: id 7, user `u`,
framed IP `1.1.1.1`, one open connection carrying `(10, 20)` bytes. -/
def c6Peer : Peer :=
  { opts :=
      { id := 7
        passwordAuth := some { user := "u", password := "p" }
        framedIP := "1.1.1.1" }
    localAddr := some "1.1.1.1"
    connMap := [{ id := 1, bytesRx := 10, bytesTx := 20 }] }

/-- The C6 witness entry: same options with `Disabled` newly true. -/
def c6DisabledEntry : PeerOptions :=
  { id := 7
    passwordAuth := some { user := "u", password := "p" }
    framedIP := "1.1.1.1"
    disabled := true }

/-- Closed-form witness for the amended claim C6: a disabled update of a
peer with one open connection carrying `(10, 20)` bytes empties the
connection map, zeroes the counters, and captures delta `(10, 20)`. -/
theorem slot_update_cancels_witness :
    (c6DisabledEntry.disabled = true ∨ cmpCredentials c6Peer.opts c6DisabledEntry = false)
      ∧ (updateExistingPeer c6Peer c6DisabledEntry []).1.connMap = []
      ∧ (updateExistingPeer c6Peer c6DisabledEntry []).2 =
          [{ peerID := 7, rx := 10, tx := 20 }] := by
  have h := slot_update_cancels_on_disable_or_credentials c6Peer c6DisabledEntry []
    (Or.inl rfl)
  exact ⟨Or.inl rfl, h.1, by rw [h.2.2.2]; decide⟩

/-- The slot of the C6 counterexample: one peer, id 7, framed IP
`1.1.1.1`, one open connection carrying `(10, 20)` bytes. -/
def c6Slot : Slot :=
  { peerMap := [c6Peer]
    userNameMap := [("u", 7)] }

/-- The C6 counterexample entry: identical options except the framed IP
changed to `2.2.2.2`. -/
def c6Entry : PeerOptions :=
  { id := 7, passwordAuth := some { user := "u", password := "p" }, framedIP := "2.2.2.2" }

/-- Claim C6 (counterexample): a FramedIP-only change — credentials
equal, `Disabled` unchanged — leaves the peer's open connection running
(still registered, not cancelled, bytes in place) and defers no delta,
contradicting the claim that a FramedIP change cancels all open
connections. -/
theorem slot_update_framedip_only_keeps_connections :
    c6Slot.peerMap.map (fun p => p.opts.framedIP) = ["1.1.1.1"]
      ∧ c6Entry.framedIP = "2.2.2.2"
      ∧ cmpCredentials (c6Slot.peerMap.headD {}).opts c6Entry = true
      ∧ c6Entry.disabled = false
      ∧ (setPeers c6Slot [c6Entry]).peerMap.map (fun p => p.opts.framedIP) = ["2.2.2.2"]
      ∧ ((setPeers c6Slot [c6Entry]).peerMap.headD {}).connMap.map connView =
          [(1, 10, 20, 0, 0, false)]
      ∧ (setPeers c6Slot [c6Entry]).oldDeltas = [] := by
  decide

/-!
## Scenario of claim C1: peer replacement preserves byte counts
-/

/-- Apply an update to the peer with the given id (the test mutates the
peer through the handle `LookupWithPassword` returned, which aliases
the map entry). -/
def onPeer (s : Slot) (id : Nat) (f : Peer → Peer) : Slot :=
  { s with peerMap := s.peerMap.map (fun p => if p.opts.id = id then f p else p) }

/-- The test's `peer.DataReceived.Add` / `peer.DataSent.Add`. -/
def peerAccount (rx tx : Nat) (p : Peer) : Peer :=
  { p with dataReceived := u64add p.dataReceived rx, dataSent := u64add p.dataSent tx }

/-- Peer A of the C1 scenario. -/
def c1OptsA : PeerOptions :=
  { id := 1, passwordAuth := some { user := "maddsua", password := "test123" } }

/-- Peer B of the C1 scenario. -/
def c1OptsB : PeerOptions :=
  { id := 2, passwordAuth := some { user := "notmaddsua", password := "00000000" } }

/-- C1 scenario: populate the slot with A and B; A accumulates
`(2000, 1000)` on its pending counters; B accumulates `(800000, 20000)`
on its counters plus `(52000, 5000)` on one connection that is then
closed — `(852000, 25000)` in total; then reconfigure with only A. -/
def c1Slot : Slot :=
  let s0 := setPeers {} [c1OptsA, c1OptsB]
  let s1 := onPeer (onPeer s0 1 (peerAccount 2000 1000)) 2 (peerAccount 800000 20000)
  let s2 := onPeer s1 2 (fun p =>
    onConn (connectAndAccount 52000 5000 p) 1 (fun c => { c with closed := true }))
  setPeers s2 [c1OptsA]

/-- Claim C1 (confirmed): after the reconfiguration with only A
present, `Deltas()` returns exactly two entries — A with
`(2000, 1000)` and B with `(852000, 25000)`: no accumulated bytes of
the removed peer B are lost and none are reported twice.  A further
`Deltas()` immediately after reports nothing. -/
theorem slot_deltas_preserved_on_peer_removal :
    (slotDeltas c1Slot).1.length = 2
      ∧ { peerID := 1, rx := 2000, tx := 1000 } ∈ (slotDeltas c1Slot).1
      ∧ { peerID := 2, rx := 852000, tx := 25000 } ∈ (slotDeltas c1Slot).1
      ∧ (slotDeltas (slotDeltas c1Slot).2).1 = [] := by
  decide

/-- Peer of the C10 witness: rx unlimited, floor 700, two live
connections. -/
def c10Peer : Peer :=
  { opts := { bandwidth := { tx := 5000, minRx := 700, minTx := 100 } }
    connMap := [{ id := 1, bytesRx := 40 }, { id := 2, bytesRx := 9000 }] }

/-- Closed-form witness for claim C10 at a concrete peer. -/
theorem peer_refreshState_zero_rx_floor_witness :
    (c10Peer.closedFlag = false ∧ c10Peer.opts.bandwidth.rx = 0
        ∧ 0 < c10Peer.opts.bandwidth.minRx)
      ∧ ∀ c ∈ (refreshState 3 c10Peer).connMap, c.bandwRx = c10Peer.opts.bandwidth.minRx := by
  refine ⟨⟨rfl, rfl, by decide⟩, ?_⟩
  exact peer_refreshState_zero_rx_floor 3 c10Peer rfl rfl (by decide)

/-!
## SOCKS5 username/password sub-negotiation
(src/unnamed/part_001:109-176 `connPasswordAuth`, dispatched from
src/unnamed/part_000:126-150 `service.serveConn`)

The client byte stream is a `List Nat`; each `ReadN` consumes a prefix
and fails like the Go helper when fewer bytes remain.  The outcome of
`Slot.LookupWithPassword` is a parameter (`LookupOutcome`), since the
claim is about the handler's reaction to it.  Bytes written to the
client are accumulated in the first component of the result.
-/

/-- Decidable equality for `Except` results. -/
instance {e a : Type} [DecidableEq e] [DecidableEq a] : DecidableEq (Except e a) :=
  fun x y =>
    match x, y with
    | .ok u, .ok v =>
      if h : u = v then .isTrue (h ▸ rfl) else .isFalse (fun hh => h (Except.ok.inj hh))
    | .error u, .error v =>
      if h : u = v then .isTrue (h ▸ rfl) else .isFalse (fun hh => h (Except.error.inj hh))
    | .ok _, .error _ => .isFalse (fun hh => Except.noConfusion hh)
    | .error _, .ok _ => .isFalse (fun hh => Except.noConfusion hh)

/-- Outcome of `Slot.LookupWithPassword` as seen by the handler. -/
inductive LookupOutcome where
  | ok
  | rateLimited
  | credentialsError
  | otherError
  deriving Repr, DecidableEq

/-- Failure modes of `connPasswordAuth`. -/
inductive AuthErr where
  | readErr
  | badVersion
  | emptyUser
  | lookup (o : LookupOutcome)
  deriving Repr, DecidableEq

/-- `readCredentials` inside `connPasswordAuth`: read `[ver][ulen]`,
reject a sub-negotiation version other than `0x01`, read `ulen` user
bytes plus the password length byte, then read the password. -/
def readCredentials (stream : List Nat) : Except AuthErr (List Nat × List Nat) :=
  if stream.length < 2 then .error .readErr
  else
    let ver := stream.headD 0
    let ulen := (stream.drop 1).headD 0
    let rest := stream.drop 2
    if ver ≠ 1 then .error .badVersion
    else if rest.length < ulen + 1 then .error .readErr
    else
      let buff := rest.take (ulen + 1)
      let user := buff.take ulen
      let plen := buff.getLastD 0
      let rest2 := rest.drop (ulen + 1)
      if rest2.length < plen then .error .readErr
      else .ok (user, rest2.take plen)

/-- `connPasswordAuth` (src/unnamed/part_001:109-176): acknowledge the
username/password method with `[0x05][0x02]`; read the credentials —
on a read error or an empty username write the fail status
`[0x01][0x01]` and fail; call the lookup — on ANY lookup error write
the fail status `[0x01][0x01]` and fail; on success write
`[0x01][0x00]`.  Returns the bytes written and the result. -/
def connPasswordAuth (stream : List Nat)
    (lookup : List Nat → List Nat → LookupOutcome) :
    List Nat × Except AuthErr (List Nat × List Nat) :=
  let ack := [5, 2]
  match readCredentials stream with
  | .error e => (ack ++ [1, 1], .error e)
  | .ok (user, pass) =>
    if user = [] then (ack ++ [1, 1], .error .emptyUser)
    else
      match lookup user pass with
      | .ok => (ack ++ [1, 0], .ok (user, pass))
      | o => (ack ++ [1, 1], .error (.lookup o))

/-- Claim C4 (counterexample): with a well-formed credentials frame for
user `u` (byte 117) and password `p` (byte 112) and a rate-limited
lookup, the handler writes `[0x05][0x02][0x01][0x01]` — the fail
status goes out on the wire — and not just the method ack
`[0x05][0x02]`; the claim says the connection is closed silently with
no reply bytes on `RateLimited`. -/
theorem socks_password_auth_rate_limited_not_silent :
    (connPasswordAuth [1, 1, 117, 1, 112] (fun _ _ => .rateLimited)).1 = [5, 2, 1, 1]
      ∧ (connPasswordAuth [1, 1, 117, 1, 112] (fun _ _ => .rateLimited)).2 =
          .error (.lookup .rateLimited)
      ∧ (connPasswordAuth [1, 1, 117, 1, 112] (fun _ _ => .rateLimited)).1 ≠ [5, 2] := by
  decide

/-- Claim C4 (corrected, amended part): for every well-formed
credentials frame with a non-empty username, ANY failing lookup —
rate-limited included — makes `connPasswordAuth` write the method ack
followed by the fail status, `[0x05][0x02][0x01][0x01]`, before the
connection is closed; `serveConn` distinguishes `RateLimitError` from
`CredentialsError` only for logging. -/
theorem socks_password_auth_fail_reply_on_any_lookup_error
    (stream : List Nat) (lookup : List Nat → List Nat → LookupOutcome)
    (user pass : List Nat)
    (hcreds : readCredentials stream = .ok (user, pass))
    (huser : user ≠ [])
    (hfail : lookup user pass ≠ .ok) :
    (connPasswordAuth stream lookup).1 = [5, 2, 1, 1]
      ∧ (connPasswordAuth stream lookup).2 = .error (.lookup (lookup user pass)) := by
  unfold connPasswordAuth
  rw [hcreds]
  dsimp only
  rw [if_neg huser]
  rcases hl : lookup user pass with _ | _ | _ | _
  · exact absurd hl hfail
  · exact ⟨rfl, rfl⟩
  · exact ⟨rfl, rfl⟩
  · exact ⟨rfl, rfl⟩

/-- Closed-form witness for the amended claim C4. -/
theorem socks_password_auth_fail_reply_witness :
    (readCredentials [1, 1, 117, 1, 112] = .ok ([117], [112])
        ∧ [117] ≠ ([] : List Nat)
        ∧ (fun (_ _ : List Nat) => LookupOutcome.rateLimited) [117] [112] ≠ .ok)
      ∧ (connPasswordAuth [1, 1, 117, 1, 112] (fun _ _ => .rateLimited)).1 = [5, 2, 1, 1] := by
  refine ⟨⟨by decide, by decide, by decide⟩, ?_⟩
  exact (socks_password_auth_fail_reply_on_any_lookup_error [1, 1, 117, 1, 112]
    (fun _ _ => .rateLimited) [117] [112] (by decide) (by decide) (by decide)).1

/-- Claim C9 (code bug, evaluation at the failing input): a reader
whose `Read` returns zero bytes with a `nil` error makes
`ReadN(reader, 1)` return a nil buffer paired with `io.EOF`, and
`ReadByte` then indexes element 0 of that nil buffer — a runtime
panic (the `none` result), so `ReadByte` is not total. -/
theorem readByte_nil_buffer_panics :
    readN { bytesRead := 0, data := [], ioErr := none } 1 = (none, some "EOF")
      ∧ readByte { bytesRead := 0, data := [], ioErr := none } = none := by
  decide

/-!
## SOCKS5 reply address marshalling
(src/socks_v5/socks_v5_addr.go:20-59 `Addr.MarshallBinary`, framed by
src/unnamed/part_001:201-220 `reply`)

The Go method splits `"host:port"`, calls `net.ParseIP(host)` and
switches on the length of the resulting byte slice (nil for a
non-address).  `net.ParseIP` yields the 16-byte IPv4-in-IPv6 form
(`net.IPv4`) for a dotted quad, never a 4-byte slice; `goParseIP`
models exactly that dotted-quad behaviour (IPv6 literal syntax is not
modelled and no theorem below evaluates one).
-/

/-- The 16-byte slice Go's `net.IPv4(a, b, c, d)` constructs
(`v4InV6Prefix` followed by the four octets). -/
def goIPv4Bytes (a b c d : Nat) : List Nat :=
  [0, 0, 0, 0, 0, 0, 0, 0, 0, 0, 255, 255, a, b, c, d]

/-- One dotted-quad field: 1-3 digits, no leading zero, value at most
255 (the Go parser's field rules). -/
def parseIPv4Field (cs : List Char) : Option Nat :=
  if cs = [] then none
  else if cs.length > 3 then none
  else if cs.any (fun c => !c.isDigit) then none
  else if cs.length > 1 ∧ cs.headD '0' = '0' then none
  else
    let v := cs.foldl (fun a c => a * 10 + (c.toNat - 48)) 0
    if v > 255 then none else some v

/-- Split a character list on a separator. -/
def splitOnChar (sep : Char) : List Char → List (List Char)
  | [] => [[]]
  | c :: rest =>
    let r := splitOnChar sep rest
    if c = sep then [] :: r
    else
      match r with
      | h :: t => (c :: h) :: t
      | [] => [[c]]

/-- `net.ParseIP` restricted to dotted-quad IPv4 literals: the 16-byte
mapped form on success, `none` (a Go nil slice) otherwise. -/
def goParseIP (s : String) : Option (List Nat) :=
  match splitOnChar (Char.ofNat 46) s.toList with
  | [fa, fb, fc, fd] =>
    match parseIPv4Field fa, parseIPv4Field fb, parseIPv4Field fc, parseIPv4Field fd with
    | some a, some b, some c, some d => some (goIPv4Bytes a b c d)
    | _, _, _, _ => none
  | _ => none

/-- Go `uint16(x)` conversion. -/
def u16of (n : Nat) : Nat := n % 65536

/-- `binary.BigEndian.AppendUint16(nil, uint16(port))`. -/
def portBytes (port : Nat) : List Nat := [u16of port / 256, u16of port % 256]

/-- The switch of `Addr.MarshallBinary` after `net.SplitHostPort` and
`net.ParseIP`: tag `0x01` for a 4-byte host slice, `0x04` for a
16-byte one, else tag `0x03` followed by the raw host string bytes
(no length byte); append the big-endian port; reject results longer
than 255 bytes. -/
def socksAddrMarshall (hostAddr : List Nat) (hostBytes : List Nat) (port : Nat) :
    Option (List Nat) :=
  let body :=
    if hostAddr.length = 4 then 1 :: hostAddr
    else if hostAddr.length = 16 then 4 :: hostAddr
    else 3 :: hostBytes
  let out := body ++ portBytes port
  if out.length > 255 then none else some out

/-- `Addr.MarshallBinary` on a non-empty address whose
`net.SplitHostPort` and `strconv.Atoi` succeeded. -/
def marshallBinaryOf (host : String) (port : Nat) : Option (List Nat) :=
  socksAddrMarshall ((goParseIP host).getD []) (host.toList.map Char.toNat) port

/-- Claim C7 (code bug, evaluation at the failing inputs): the
marshaller never produces the claimed IPv4 form `[0x01][4 bytes]` for
a dotted quad — `net.ParseIP` returns the 16-byte mapped slice, so
`1.2.3.4:80` is emitted as `[0x04][16 bytes][port]`; and a domain is
emitted as `[0x03][domain bytes][port]` with NO length byte — the
second output byte of `example.com:80` is `0x65` (`e`), not the
length 11 that the claimed `[0x03][len][bytes]` form (and the
codebase's own `readAddr` parser) requires. -/
theorem socks_addr_marshall_encoding_bug :
    marshallBinaryOf "1.2.3.4" 80 = some (4 :: goIPv4Bytes 1 2 3 4 ++ [0, 80])
      ∧ ((marshallBinaryOf "1.2.3.4" 80).getD []).headD 0 = 4
      ∧ marshallBinaryOf "example.com" 80 =
          some ([3, 101, 120, 97, 109, 112, 108, 101, 46, 99, 111, 109] ++ [0, 80])
      ∧ (((marshallBinaryOf "example.com" 80).getD []).drop 1).headD 0 = 101 := by
  decide

/-!
## HTTP proxy authorization
(src/http/http_proxy_request.go:15-41 `proxyRequestCredentials`,
src/http/http_proxy_request.go:185-233 `service.ServeHTTP`)

Strings are handled at character-list level; `strings.ToLower` is
modelled for ASCII, which covers the `"basic"` comparison.  Note that
the Go handler answers `http.StatusUnauthorized`, which is 401.
-/

/-- Go `strings.Cut`: split at the first occurrence of the separator.
Returns `(before, after, found)`. -/
def cutList {a : Type} [DecidableEq a] (sep : a) : List a → List a × List a × Bool
  | [] => ([], [], false)
  | c :: rest =>
    if c = sep then ([], rest, true)
    else
      let r := cutList sep rest
      (c :: r.1, r.2.1, r.2.2)

/-- ASCII whitespace as trimmed by `strings.TrimSpace` (the Unicode
cases do not matter for the scheme token). -/
def isSpaceChar (c : Char) : Bool :=
  c = ' ' ∨ c = Char.ofNat 9 ∨ c = Char.ofNat 10 ∨ c = Char.ofNat 13

/-- `strings.TrimSpace` over characters. -/
def trimSpace (cs : List Char) : List Char :=
  ((cs.dropWhile isSpaceChar).reverse.dropWhile isSpaceChar).reverse

/-- ASCII `strings.ToLower`. -/
def asciiLowerChar (c : Char) : Char :=
  if 'A' ≤ c ∧ c ≤ 'Z' then Char.ofNat (c.toNat + 32) else c

/-- One character of the standard (padded) base64 alphabet. -/
def b64StdDecChar (c : Char) : Option Nat :=
  if 'A' ≤ c ∧ c ≤ 'Z' then some (c.toNat - 65)
  else if 'a' ≤ c ∧ c ≤ 'z' then some (c.toNat - 71)
  else if '0' ≤ c ∧ c ≤ '9' then some (c.toNat + 4)
  else if c = '+' then some 62
  else if c = '/' then some 63
  else none

/-- `base64.StdEncoding.DecodeString`: four-character blocks, `=`
padding allowed only at the very end, yielding 3, 2 or 1 bytes per
block. -/
def decodeB64Std : List Char → Option (List Nat)
  | [] => some []
  | a :: b :: c :: d :: rest =>
    match b64StdDecChar a, b64StdDecChar b with
    | some sa, some sb =>
      if c = '=' then
        if d = '=' ∧ rest = [] then some [sa * 4 + sb / 16] else none
      else
        match b64StdDecChar c with
        | some sc =>
          if d = '=' then
            if rest = [] then some [sa * 4 + sb / 16, sb % 16 * 16 + sc / 4] else none
          else
            match b64StdDecChar d with
            | some sd =>
              match decodeB64Std rest with
              | some tail =>
                some ([sa * 4 + sb / 16, sb % 16 * 16 + sc / 4, sc % 4 * 64 + sd] ++ tail)
              | none => none
            | none => none
        | none => none
    | _, _ => none
  | _ => none

/-- `proxyRequestCredentials` (src/http/http_proxy_request.go:15-41):
reject an absent header; cut at the first space and demand the scheme
`basic` case-insensitively; base64-decode the token; cut the result at
the first `:` (byte 58); reject an empty username. -/
def proxyRequestCredentials (proxyAuth : String) :
    Except String (List Nat × List Nat) :=
  if proxyAuth = "" then .error "unauthorized"
  else
    let cut := cutList ' ' proxyAuth.toList
    if ((trimSpace cut.1).map asciiLowerChar ≠ "basic".toList) then
      .error "invalid auth schema"
    else
      match decodeB64Std cut.2.1 with
      | none => .error "illegal base64 data"
      | some bytes =>
        let userCut := cutList 58 bytes
        if userCut.1 = [] then .error "username is empty"
        else .ok (userCut.1, userCut.2.1)

/-- An HTTP response as far as the claims need it. -/
structure HttpResponse where
  status : Nat
  headers : List (String × String)
  deriving Repr, DecidableEq

/-- The 401 response of the authorization gate for a given host. -/
def http401Response (host : String) : HttpResponse :=
  { status := 401
    headers := [("Via", "nx-proxy"), ("X-Forwarded", "to=" ++ host),
      ("Proxy-Authenticate", "Basic")] }

/-- The authorization gate of `service.ServeHTTP`
(src/http/http_proxy_request.go:185-204): set `Via` and `X-Forwarded`,
parse the proxy credentials, and on failure answer
`http.StatusUnauthorized` (401) with `Proxy-Authenticate: Basic`;
otherwise hand the credentials on (to `LookupWithPassword`). -/
def serveHTTPAuthGate (host : String) (proxyAuth : String) :
    Except HttpResponse (List Nat × List Nat) :=
  let base := [("Via", "nx-proxy"), ("X-Forwarded", "to=" ++ host)]
  match proxyRequestCredentials proxyAuth with
  | .error _ =>
    .error { status := 401, headers := base ++ [("Proxy-Authenticate", "Basic")] }
  | .ok creds => .ok creds

/-- Claim C5 (counterexample): for a request without a
`Proxy-Authorization` header — and likewise for a non-Basic scheme —
the handler responds with status 401 (`http.StatusUnauthorized`), not
the claimed 407, though it does attach `Proxy-Authenticate: Basic`. -/
theorem http_proxy_auth_replies_401_not_407 :
    serveHTTPAuthGate "example.com:80" "" =
        .error (http401Response "example.com:80")
      ∧ serveHTTPAuthGate "example.com:80" "Bearer abc" =
        .error (http401Response "example.com:80")
      ∧ (401 : Nat) ≠ 407 := by
  decide

/-- Claim C5 (corrected, amended part): for every request whose
`Proxy-Authorization` header is absent, malformed, or of a scheme
other than Basic — every credential-parse failure — the handler
responds with status 401 (`http.StatusUnauthorized`) carrying a
`Proxy-Authenticate: Basic` header. -/
theorem http_proxy_auth_401_on_credential_failure
    (host proxyAuth : String) (e : String)
    (h : proxyRequestCredentials proxyAuth = .error e) :
    serveHTTPAuthGate host proxyAuth =
      .error (http401Response host) := by
  unfold serveHTTPAuthGate
  rw [h]
  rfl

/-- Closed-form witness for the amended claim C5 at the absent-header
input. -/
theorem http_proxy_auth_401_witness :
    proxyRequestCredentials "" = .error "unauthorized"
      ∧ serveHTTPAuthGate "example.com:80" "" =
        .error (http401Response "example.com:80") := by
  refine ⟨by decide, ?_⟩
  exact http_proxy_auth_401_on_credential_failure "example.com:80" "" "unauthorized"
    (by decide)

/-!
## Server token (src/unnamed/part_002)

Bytes and characters are `Nat` codes; `46` is the `.` separator.  The
unpadded base64url codec (`base64.RawURLEncoding`) is embedded from
its specification in the Go standard library, which the source
delegates to: 3-byte groups become 4 alphabet characters, a 1- or
2-byte remainder becomes 2 or 3 characters, and decoding rejects any
character outside the alphabet and any leftover length of 1.
-/

/-- The base64url alphabet: sextet to character code. -/
def b64UrlChar (i : Nat) : Nat :=
  if i < 26 then 65 + i
  else if i < 52 then 97 + (i - 26)
  else if i < 62 then 48 + (i - 52)
  else if i = 62 then 45
  else 95

/-- Inverse of the base64url alphabet. -/
def b64UrlDecChar (c : Nat) : Option Nat :=
  if 65 ≤ c ∧ c ≤ 90 then some (c - 65)
  else if 97 ≤ c ∧ c ≤ 122 then some (c - 97 + 26)
  else if 48 ≤ c ∧ c ≤ 57 then some (c - 48 + 52)
  else if c = 45 then some 62
  else if c = 95 then some 63
  else none

/-- `base64.RawURLEncoding.EncodeToString` over bytes. -/
def encodeB64Url : List Nat → List Nat
  | [] => []
  | [a] => [b64UrlChar (a / 4), b64UrlChar (a % 4 * 16)]
  | [a, b] => [b64UrlChar (a / 4), b64UrlChar (a % 4 * 16 + b / 16), b64UrlChar (b % 16 * 4)]
  | a :: b :: c :: rest =>
    b64UrlChar (a / 4) :: b64UrlChar (a % 4 * 16 + b / 16) ::
      b64UrlChar (b % 16 * 4 + c / 64) :: b64UrlChar (c % 64) :: encodeB64Url rest

/-- `base64.RawURLEncoding.DecodeString` over characters (Go's default
decoder ignores non-zero trailing bits of a final partial group). -/
def decodeB64Url : List Nat → Option (List Nat)
  | [] => some []
  | [_] => none
  | [x, y] =>
    match b64UrlDecChar x, b64UrlDecChar y with
    | some sx, some sy => some [sx * 4 + sy / 16]
    | _, _ => none
  | [x, y, z] =>
    match b64UrlDecChar x, b64UrlDecChar y, b64UrlDecChar z with
    | some sx, some sy, some sz => some [sx * 4 + sy / 16, sy % 16 * 16 + sz / 4]
    | _, _, _ => none
  | x :: y :: z :: w :: rest =>
    match b64UrlDecChar x, b64UrlDecChar y, b64UrlDecChar z, b64UrlDecChar w,
        decodeB64Url rest with
    | some sx, some sy, some sz, some sw, some tail =>
      some ([sx * 4 + sy / 16, sy % 16 * 16 + sz / 4, sz % 4 * 64 + sw] ++ tail)
    | _, _, _, _, _ => none

theorem b64UrlDecChar_b64UrlChar (n : Nat) (h : n < 64) :
    b64UrlDecChar (b64UrlChar n) = some n := by
  unfold b64UrlChar b64UrlDecChar
  split
  · next h1 =>
    rw [if_pos (by omega : 65 ≤ 65 + n ∧ 65 + n ≤ 90)]
    simp only [Option.some.injEq]
    omega
  · split
    · next h1 h2 =>
      rw [if_neg (by omega : ¬(65 ≤ 97 + (n - 26) ∧ 97 + (n - 26) ≤ 90))]
      rw [if_pos (by omega : 97 ≤ 97 + (n - 26) ∧ 97 + (n - 26) ≤ 122)]
      simp only [Option.some.injEq]
      omega
    · split
      · next h1 h2 h3 =>
        rw [if_neg (by omega : ¬(65 ≤ 48 + (n - 52) ∧ 48 + (n - 52) ≤ 90))]
        rw [if_neg (by omega : ¬(97 ≤ 48 + (n - 52) ∧ 48 + (n - 52) ≤ 122))]
        rw [if_pos (by omega : 48 ≤ 48 + (n - 52) ∧ 48 + (n - 52) ≤ 57)]
        simp only [Option.some.injEq]
        omega
      · split
        · next h1 h2 h3 h4 => subst h4; decide
        · next h1 h2 h3 h4 =>
          have : n = 63 := by omega
          subst this
          decide

theorem b64UrlChar_ne_dot (n : Nat) : b64UrlChar n ≠ 46 := by
  unfold b64UrlChar
  split
  · omega
  · split
    · omega
    · split
      · omega
      · split
        · omega
        · omega

theorem encodeB64Url_no_dot : ∀ l : List Nat, 46 ∉ encodeB64Url l
  | [] => by simp [encodeB64Url]
  | [a] => by
    intro hmem
    simp only [encodeB64Url, List.mem_cons, List.not_mem_nil, or_false] at hmem
    rcases hmem with h | h <;> exact b64UrlChar_ne_dot _ h.symm
  | [a, b] => by
    intro hmem
    simp only [encodeB64Url, List.mem_cons, List.not_mem_nil, or_false] at hmem
    rcases hmem with h | h | h <;> exact b64UrlChar_ne_dot _ h.symm
  | a :: b :: c :: rest => by
    intro hmem
    simp only [encodeB64Url, List.mem_cons] at hmem
    rcases hmem with h | h | h | h | h
    · exact b64UrlChar_ne_dot _ h.symm
    · exact b64UrlChar_ne_dot _ h.symm
    · exact b64UrlChar_ne_dot _ h.symm
    · exact b64UrlChar_ne_dot _ h.symm
    · exact encodeB64Url_no_dot rest h

theorem decodeB64Url_encodeB64Url : ∀ l : List Nat, (∀ x ∈ l, x < 256) →
    decodeB64Url (encodeB64Url l) = some l
  | [], _ => rfl
  | [a], h => by
    have ha : a < 256 := h a (by simp)
    simp only [encodeB64Url, decodeB64Url]
    rw [b64UrlDecChar_b64UrlChar _ (by omega), b64UrlDecChar_b64UrlChar _ (by omega)]
    simp only [Option.some.injEq, List.cons.injEq, and_true]
    omega
  | [a, b], h => by
    have ha : a < 256 := h a (by simp)
    have hb : b < 256 := h b (by simp)
    simp only [encodeB64Url, decodeB64Url]
    rw [b64UrlDecChar_b64UrlChar _ (by omega), b64UrlDecChar_b64UrlChar _ (by omega),
      b64UrlDecChar_b64UrlChar _ (by omega)]
    simp only [Option.some.injEq, List.cons.injEq, and_true]
    constructor
    · omega
    · omega
  | a :: b :: c :: rest, h => by
    have ha : a < 256 := h a (by simp)
    have hb : b < 256 := h b (by simp)
    have hc : c < 256 := h c (by simp)
    have ih := decodeB64Url_encodeB64Url rest (fun x hx => h x (by simp [hx]))
    simp only [encodeB64Url, decodeB64Url]
    rw [b64UrlDecChar_b64UrlChar _ (by omega), b64UrlDecChar_b64UrlChar _ (by omega),
      b64UrlDecChar_b64UrlChar _ (by omega), b64UrlDecChar_b64UrlChar _ (by omega), ih]
    simp only [Option.some.injEq, List.cons.injEq, List.append_eq, and_true]
    rw [show a / 4 * 4 + (a % 4 * 16 + b / 16) / 16 = a by omega,
      show (a % 4 * 16 + b / 16) % 16 * 16 + (b % 16 * 4 + c / 64) / 4 = b by omega,
      show (b % 16 * 4 + c / 64) % 4 * 64 + c % 64 = c by omega]
    rfl


/-- `ServerToken`: 16-byte UUID plus secret key bytes. -/
structure ServerToken where
  id : List Nat
  secretKey : List Nat
  deriving Repr, DecidableEq

/-- `ServerToken.String` (src/unnamed/part_002:43-47):
`base64url(ID) "." base64url(SecretKey)`, both unpadded; `46` is
`.`. -/
def serverTokenString (t : ServerToken) : List Nat :=
  encodeB64Url t.id ++ 46 :: encodeB64Url t.secretKey

/-- `ParseServerToken` (src/unnamed/part_002:49-75): cut at the first
`.` (no cut point is an error); base64url-decode the left part and
demand exactly 16 bytes for the UUID (`uuid.FromBytes` of the nil
slice a failed decode yields errors as well); base64url-decode the
right part (a failed decode yields nil, an error). -/
def parseServerToken (val : List Nat) : Option ServerToken :=
  let cut := cutList 46 val
  if cut.2.2 then
    match decodeB64Url cut.1 with
    | some idBytes =>
      if idBytes.length = 16 then
        match decodeB64Url cut.2.1 with
        | some key => some { id := idBytes, secretKey := key }
        | none => none
      else none
    | none => none
  else none

theorem cutList_not_found {a : Type} [DecidableEq a] (sep : a) :
    ∀ v : List a, sep ∉ v → cutList sep v = (v, [], false)
  | [], _ => rfl
  | c :: t, h => by
    have hc : ¬(c = sep) := fun hh => h (hh ▸ List.mem_cons_self c t)
    simp [cutList, hc, cutList_not_found sep t (fun hm => h (List.mem_cons_of_mem c hm))]

theorem cutList_append {a : Type} [DecidableEq a] (sep : a) :
    ∀ l1 l2 : List a, sep ∉ l1 → cutList sep (l1 ++ sep :: l2) = (l1, l2, true)
  | [], l2, _ => by simp [cutList]
  | c :: t, l2, h => by
    have hc : ¬(c = sep) := fun hh => h (hh ▸ List.mem_cons_self c t)
    simp [cutList, hc, cutList_append sep t l2 (fun hm => h (List.mem_cons_of_mem c hm))]

theorem cutList_found {a : Type} [DecidableEq a] (sep : a) :
    ∀ v : List a, sep ∈ v →
      ∃ b aft, cutList sep v = (b, aft, true) ∧ v = b ++ sep :: aft ∧ sep ∉ b
  | [], h => absurd h (List.not_mem_nil sep)
  | c :: t, h => by
    by_cases hc : c = sep
    · subst hc
      exact ⟨[], t, by simp [cutList], rfl, List.not_mem_nil c⟩
    · have hmem : sep ∈ t := by
        rcases List.mem_cons.mp h with h1 | h1
        · exact absurd h1.symm hc
        · exact h1
      obtain ⟨b, aft, h1, h2, h3⟩ := cutList_found sep t hmem
      refine ⟨c :: b, aft, by simp [cutList, hc, h1], by simp [h2], ?_⟩
      intro hm
      rcases List.mem_cons.mp hm with h4 | h4
      · exact hc h4.symm
      · exact h3 h4

theorem b64UrlDecChar_dot : b64UrlDecChar 46 = none := by decide

theorem decodeB64Url_dot_none : ∀ l : List Nat, 46 ∈ l → decodeB64Url l = none
  | [], h => absurd h (List.not_mem_nil 46)
  | [_], _ => rfl
  | [x, y], h => by
    simp only [List.mem_cons, List.not_mem_nil, or_false] at h
    simp only [decodeB64Url]
    rcases h with h | h
    · subst h
      rw [b64UrlDecChar_dot]
    · subst h
      rw [b64UrlDecChar_dot]
      cases hdx : b64UrlDecChar x <;> rfl
  | [x, y, z], h => by
    simp only [List.mem_cons, List.not_mem_nil, or_false] at h
    simp only [decodeB64Url]
    rcases h with h | h | h
    · subst h
      rw [b64UrlDecChar_dot]
    · subst h
      rw [b64UrlDecChar_dot]
      cases hdx : b64UrlDecChar x <;> cases hdz : b64UrlDecChar z <;> rfl
    · subst h
      rw [b64UrlDecChar_dot]
      cases hdx : b64UrlDecChar x <;> cases hdy : b64UrlDecChar y <;> rfl
  | x :: y :: z :: w :: rest, h => by
    simp only [List.mem_cons] at h
    simp only [decodeB64Url]
    rcases h with h | h | h | h | h
    · subst h
      rw [b64UrlDecChar_dot]
    · subst h
      rw [b64UrlDecChar_dot]
      cases hdx : b64UrlDecChar x <;> cases hdz : b64UrlDecChar z <;>
        cases hdw : b64UrlDecChar w <;> cases hdr : decodeB64Url rest <;> rfl
    · subst h
      rw [b64UrlDecChar_dot]
      cases hdx : b64UrlDecChar x <;> cases hdy : b64UrlDecChar y <;>
        cases hdw : b64UrlDecChar w <;> cases hdr : decodeB64Url rest <;> rfl
    · subst h
      rw [b64UrlDecChar_dot]
      cases hdx : b64UrlDecChar x <;> cases hdy : b64UrlDecChar y <;>
        cases hdz : b64UrlDecChar z <;> cases hdr : decodeB64Url rest <;> rfl
    · rw [decodeB64Url_dot_none rest h]
      cases hdx : b64UrlDecChar x <;> cases hdy : b64UrlDecChar y <;>
        cases hdz : b64UrlDecChar z <;> cases hdw : b64UrlDecChar w <;> rfl

theorem serverToken_parse_format (t : ServerToken) (h16 : t.id.length = 16)
    (hid : ∀ x ∈ t.id, x < 256) (hkey : ∀ x ∈ t.secretKey, x < 256) :
    parseServerToken (serverTokenString t) = some t := by
  unfold parseServerToken serverTokenString
  rw [cutList_append 46 _ _ (encodeB64Url_no_dot t.id)]
  dsimp only
  rw [decodeB64Url_encodeB64Url t.id hid, decodeB64Url_encodeB64Url t.secretKey hkey]
  simp [h16]

theorem serverToken_parse_none_unless_single_dot (v : List Nat) (h : v.count 46 ≠ 1) : parseServerToken v = none := by
  by_cases hm : 46 ∈ v
  · obtain ⟨b, aft, h1, h2, h3⟩ := cutList_found 46 v hm
    have hcb : b.count 46 = 0 := List.count_eq_zero.mpr h3
    have hca : aft.count 46 ≠ 0 := by
      subst h2
      simp [List.count_append, hcb] at h
      omega
    have hma : 46 ∈ aft := by
      by_contra hno
      exact hca (List.count_eq_zero.mpr hno)
    unfold parseServerToken
    rw [h1]
    dsimp only
    rw [decodeB64Url_dot_none aft hma]
    cases hdb : decodeB64Url b <;> simp
  · unfold parseServerToken
    rw [cutList_not_found 46 v hm]
    rfl


/-- Claim C8 (confirmed): `ParseServerToken(t.String())` returns a
token equal to `t` for every valid token — a 16-byte UUID id and
arbitrary secret key bytes — and `ParseServerToken` rejects every
input that does not contain exactly one `.`: with no `.` the cut
fails, and with two or more the part after the first `.` still
contains a `.`, which the base64url key decode rejects. -/
theorem server_token_roundtrip_and_single_dot :
    (∀ t : ServerToken, t.id.length = 16 → (∀ x ∈ t.id, x < 256) →
        (∀ x ∈ t.secretKey, x < 256) →
        parseServerToken (serverTokenString t) = some t)
      ∧ (∀ v : List Nat, v.count 46 ≠ 1 → parseServerToken v = none) :=
  ⟨serverToken_parse_format, serverToken_parse_none_unless_single_dot⟩

/-- A concrete server token for the C8 witness. -/
def c8Token : ServerToken :=
  { id := [0, 1, 2, 3, 4, 5, 6, 7, 8, 9, 10, 11, 12, 13, 14, 15]
    secretKey := [202, 254, 1, 2, 3] }

/-- Closed-form witness for claim C8: the round-trip at a concrete
token, and rejection of the dot-free string `AB` and of the two-dot
string `A.B.C`. -/
theorem server_token_roundtrip_witness :
    (c8Token.id.length = 16 ∧ (∀ x ∈ c8Token.id, x < 256)
        ∧ (∀ x ∈ c8Token.secretKey, x < 256)
        ∧ parseServerToken (serverTokenString c8Token) = some c8Token)
      ∧ (List.count 46 [65, 66] ≠ 1
        ∧ parseServerToken [65, 66] = none)
      ∧ (List.count 46 [65, 46, 66, 46, 67] ≠ 1
        ∧ parseServerToken [65, 46, 66, 46, 67] = none) := by
  refine ⟨⟨by decide, by decide, by decide, ?_⟩, ⟨by decide, ?_⟩, ⟨by decide, ?_⟩⟩
  · exact server_token_roundtrip_and_single_dot.1 c8Token (by decide) (by decide) (by decide)
  · exact server_token_roundtrip_and_single_dot.2 [65, 66] (by decide)
  · exact server_token_roundtrip_and_single_dot.2 [65, 46, 66, 46, 67] (by decide)


end NxProxy
